import Mathlib

/-!
Verification of the URL-shortening and click-analytics service.

Shallow embedding of the core code:
  - src/src/lib/database.ts        (JSON-file record store and analytics)
  - src/src/lib/link-generator.ts  (short-code generation and link gating)
  - src/src/lib/validation.ts      (custom-code validation)
  - src/src/app/r/[shortCode]/route.ts (redirect and tracking pipeline)
  - the /api/links/[id] route handlers (PUT frame behaviour)

Modelling conventions, fixed once for the whole file:
  - ISO-8601 timestamp strings are modelled as `Int` epoch milliseconds.
    String comparison of ISO timestamps agrees with numeric comparison of
    the instants they denote, and `new Date(s).getTime()` is the identity
    under this reading.  `timestamp.split(T)[0]`, the calendar date, is
    modelled as flooring division by 86400000 (UTC day index).
  - JavaScript numbers holding counters are `Nat`; instants are `Int`;
    the fractional analytics values (percentages, clicks per day) are `Rat`.
  - `undefined` / missing object fields are `Option.none`.  A JS partial
    update object is a record of `Option` fields: `none` means the key is
    absent, `some v` means the key is present with value `v`.
  - fallible external effects (file system, geolocation service, random
    draws) enter as explicit parameters, so every definition is a total
    function of its inputs.
-/

namespace LinkTracker

/-- Milliseconds per day, the divisor used by the analytics code. -/
def msPerDay : Int := 1000 * 60 * 60 * 24

/-- UTC calendar-day index of an epoch-millisecond instant; stands for
the `timestamp.split(T)[0]` date prefix of an ISO string. -/
def dayOf (t : Int) : Int := t.fdiv msPerDay

/-- Location source tag, the `source` field of ClickLocation
(src/src/types/link.ts). -/
inductive LocSource where
  | ip
  | browser
  | both
deriving DecidableEq, Repr

/-- Device type union from src/src/types/link.ts. -/
inductive DeviceType where
  | desktop
  | mobile
  | tablet
  | unknown
deriving DecidableEq, Repr

/-- DeviceInfo record from src/src/types/link.ts. -/
structure DeviceInfo where
  type : DeviceType
  browser : String
  browserVersion : String
  os : String
  osVersion : String
  screen : Option (Nat × Nat) := none
deriving DecidableEq, Repr

/-- ClickLocation record from src/src/types/link.ts.  Coordinates are
JS numbers; they are carried as `Rat` and never computed with. -/
structure ClickLocation where
  country : Option String := none
  countryCode : Option String := none
  region : Option String := none
  city : Option String := none
  latitude : Option Rat := none
  longitude : Option Rat := none
  timezone : Option String := none
  isp : Option String := none
  accuracy : Option Rat := none
  source : LocSource := .ip
deriving DecidableEq, Repr

/-- TrackingLink record from src/src/types/link.ts. -/
structure Link where
  id : String
  originalUrl : String
  shortCode : String
  title : Option String := none
  description : Option String := none
  createdAt : Int
  updatedAt : Int
  isActive : Bool
  expiresAt : Option Int := none
  password : Option String := none
  userId : Option String := none
  totalClicks : Nat
  uniqueClicks : Nat
  lastClickAt : Option Int := none
deriving DecidableEq, Repr

/-- LinkClick record from src/src/types/link.ts. -/
structure Click where
  id : String
  linkId : String
  shortCode : String
  timestamp : Int
  ipAddress : String
  userAgent : String
  referer : Option String := none
  location : ClickLocation
  device : DeviceInfo
  sessionId : String
deriving DecidableEq, Repr

/-- The parsed contents of the two JSON collections (links.json and
clicks.json) that src/src/lib/database.ts reads and rewrites. -/
structure DB where
  links : List Link
  clicks : List Click
deriving DecidableEq, Repr

/-! ### The file-read layer (readJSONFile) -/

/-- Outcome of one attempt to read and JSON-parse a collection file:
either the parsed list, or an I/O or parse failure with its message. -/
inductive FileReadOutcome (α : Type) where
  | ok (items : List α)
  | failure (msg : String)
deriving DecidableEq, Repr

/-- readJSONFile (database.ts lines 20 to 29): the try/catch around
fs.readFile plus JSON.parse; every failure is swallowed and yields the
empty array.  The function is total: no outcome raises an error. -/
def readJSONFile {α : Type} : FileReadOutcome α → List α
  | .ok items => items
  | .failure _ => []

/-- The store state obtained from the two collection files; composing the
DB-level operations below with this reader gives the literal source
functions, which each begin by reading a whole file. -/
def dbOfFiles (fl : FileReadOutcome Link) (fc : FileReadOutcome Click) : DB :=
  { links := readJSONFile fl, clicks := readJSONFile fc }

/-! ### Record store operations (src/src/lib/database.ts) -/

/-- getAllLinks (database.ts line 37). -/
def getAllLinks (db : DB) : List Link := db.links

/-- getAllClicks (database.ts line 85). -/
def getAllClicks (db : DB) : List Click := db.clicks

/-- getLinkByShortCode (database.ts line 41): `links.find(...) || null`. -/
def getLinkByShortCode (db : DB) (shortCode : String) : Option Link :=
  (getAllLinks db).find? (fun link => link.shortCode == shortCode)

/-- getLinkById (database.ts line 46). -/
def getLinkById (db : DB) (id : String) : Option Link :=
  (getAllLinks db).find? (fun link => link.id == id)

/-- createLink (database.ts lines 51 to 55): reads all links, pushes the
new one, rewrites the file.  The source performs no duplicate check. -/
def createLink (db : DB) (link : Link) : DB :=
  { db with links := db.links ++ [link] }

/-- A JS `Partial(TrackingLink)` update object: outer `Option` is key
presence, the inner value is what the key maps to (`some none` models a
key present with value undefined/null).  `updatedAt` is omitted because
the spread in updateLink always overwrites it last. -/
structure LinkPatch where
  id : Option String := none
  originalUrl : Option String := none
  shortCode : Option String := none
  title : Option (Option String) := none
  description : Option (Option String) := none
  createdAt : Option Int := none
  isActive : Option Bool := none
  expiresAt : Option (Option Int) := none
  password : Option (Option String) := none
  userId : Option (Option String) := none
  totalClicks : Option Nat := none
  uniqueClicks : Option Nat := none
  lastClickAt : Option (Option Int) := none
deriving DecidableEq, Repr

/-- The object spread `\x7b ...link, ...updates, updatedAt: now \x7d`
of database.ts line 63: present keys of the patch win, and updatedAt is
always stamped with the current time. -/
def applyPatch (l : Link) (p : LinkPatch) (now : Int) : Link :=
  { id := p.id.getD l.id
    originalUrl := p.originalUrl.getD l.originalUrl
    shortCode := p.shortCode.getD l.shortCode
    title := p.title.getD l.title
    description := p.description.getD l.description
    createdAt := p.createdAt.getD l.createdAt
    updatedAt := now
    isActive := p.isActive.getD l.isActive
    expiresAt := p.expiresAt.getD l.expiresAt
    password := p.password.getD l.password
    userId := p.userId.getD l.userId
    totalClicks := p.totalClicks.getD l.totalClicks
    uniqueClicks := p.uniqueClicks.getD l.uniqueClicks
    lastClickAt := p.lastClickAt.getD l.lastClickAt }

/-- Replace the first element satisfying `p` by its image under `f`;
`none` when no element matches.  This is the findIndex-then-assign
step of updateLink (database.ts lines 59 to 63). -/
def updateFirst {α : Type} (p : α → Bool) (f : α → α) : List α → Option (List α)
  | [] => none
  | x :: xs =>
    if p x then some (f x :: xs) else (updateFirst p f xs).map (fun ys => x :: ys)

/-- updateLink (database.ts lines 57 to 66): false when the id is
unknown, otherwise merge the patch into the first matching link, stamp
updatedAt, persist. -/
def updateLink (db : DB) (id : String) (patch : LinkPatch) (now : Int) : Bool × DB :=
  match updateFirst (fun l => l.id == id) (fun l => applyPatch l patch now) db.links with
  | none => (false, db)
  | some ls => (true, { db with links := ls })

/-- deleteLink (database.ts lines 68 to 82): filter the link out, return
false if nothing was removed, otherwise also drop every click whose
linkId matches. -/
def deleteLink (db : DB) (id : String) : Bool × DB :=
  let filteredLinks := db.links.filter (fun l => !(l.id == id))
  if filteredLinks.length == db.links.length then (false, db)
  else (true, { links := filteredLinks
                clicks := db.clicks.filter (fun c => !(c.linkId == id)) })

/-- getClicksByLinkId (database.ts lines 89 to 92). -/
def getClicksByLinkId (db : DB) (linkId : String) : List Click :=
  (getAllClicks db).filter (fun c => c.linkId == linkId)

/-- Size of `new Set(xs)`: the number of distinct values in `xs`. -/
def distinctCount (xs : List String) : Nat := xs.dedup.length

/-- updateLinkStats (database.ts lines 104 to 115): recompute the owning
Link denormalised counters from the click collection and persist them
through updateLink.  The lastClickAt key is always present in the patch;
its value is undefined when the click list is empty, exactly as
`clicks[clicks.length - 1]?.timestamp`. -/
def updateLinkStats (db : DB) (linkId : String) (now : Int) : DB :=
  let clicks := getClicksByLinkId db linkId
  let patch : LinkPatch :=
    { totalClicks := some clicks.length
      uniqueClicks := some (distinctCount (clicks.map (fun c => c.sessionId)))
      lastClickAt := some (clicks.getLast?.map (fun c => c.timestamp)) }
  (updateLink db linkId patch now).2

/-- addClick (database.ts lines 94 to 101): append the click to the
clicks collection, then recompute the owning link statistics. -/
def addClick (db : DB) (click : Click) (now : Int) : DB :=
  let db1 : DB := { db with clicks := db.clicks ++ [click] }
  updateLinkStats db1 click.linkId now

/-! ### Identifier generation (src/src/lib/link-generator.ts) -/

/-- The 62-character alphanumeric alphabet (link-generator.ts line 5). -/
def alphabetChars : List Char :=
  "ABCDEFGHIJKLMNOPQRSTUVWXYZabcdefghijklmnopqrstuvwxyz0123456789".data

/-- One random character pick: `CHARACTERS.charAt(floor(random() * 62))`.
The raw draw `n` is an arbitrary natural number; reducing it mod 62
models the in-range index the JS expression always produces. -/
def charAtDraw (n : Nat) : Char := alphabetChars.getD (n % 62) 'A'

/-- generateRandomCode (link-generator.ts lines 11 to 17), with the
stream of random draws made explicit: the code of length `len` built
from draws `seq off`, `seq (off+1)`, and so on. -/
def generateRandomCode (len : Nat) (seq : Nat → Nat) (off : Nat) : String :=
  String.mk ((List.range len).map (fun i => charAtDraw (seq (off + i))))

/-- The random-draw loop of generateUniqueShortCode (lines 36 to 45):
up to `fuel` attempts, each drawing a fresh length-8 code and accepting
the first one that resolves to no existing link. -/
def genAttempts (db : DB) (seq : Nat → Nat) : Nat → Nat → Option String
  | 0, _ => none
  | fuel + 1, off =>
    let code := generateRandomCode 8 seq off
    if (getLinkByShortCode db code).isSome then genAttempts db seq fuel (off + 8)
    else some code

/-- The no-custom-code path of generateUniqueShortCode (lines 32 to 55):
ten length-8 attempts, then a single length-10 retry, then the failure
`Unable to generate unique short code`. -/
def generateRandomUniqueCode (db : DB) (seq : Nat → Nat) : Except String String :=
  match genAttempts db seq 10 0 with
  | some code => .ok code
  | none =>
    let longerCode := generateRandomCode 10 seq 80
    if (getLinkByShortCode db longerCode).isSome then
      .error "Unable to generate unique short code"
    else .ok longerCode

/-- generateUniqueShortCode (link-generator.ts lines 22 to 56).  A custom
code is used only when truthy (the empty string falls through to random
generation, like the JS `if (customCode)` test); a taken custom code
fails with the conflict error the POST route maps to HTTP 409. -/
def generateUniqueShortCode (db : DB) (seq : Nat → Nat) (customCode : Option String) :
    Except String String :=
  match customCode with
  | some c =>
    if c == "" then generateRandomUniqueCode db seq
    else if (getLinkByShortCode db c).isSome then
      .error "Custom short code already exists"
    else .ok c
  | none => generateRandomUniqueCode db seq

/-- isLinkExpired (link-generator.ts lines 122 to 125): no expiresAt
means never expired, otherwise expired exactly when the instant is
strictly before now. -/
def isLinkExpired (l : Link) (now : Int) : Bool :=
  match l.expiresAt with
  | none => false
  | some t => decide (t < now)

/-- isPasswordProtected (link-generator.ts lines 130 to 132): the JS
double negation is true only for a set, non-empty password. -/
def isPasswordProtected (l : Link) : Bool :=
  match l.password with
  | none => false
  | some p => !(p == "")

/-! ### Custom-code validation
(link-generator.ts lines 73 to 77 and validation.ts lines 16 to 21) -/

/-- Character class `[a-zA-Z0-9_-]` shared by both validators. -/
def isCodeChar (c : Char) : Bool :=
  (decide ('a' ≤ c) && decide (c ≤ 'z')) ||
  (decide ('A' ≤ c) && decide (c ≤ 'Z')) ||
  (decide ('0' ≤ c) && decide (c ≤ '9')) ||
  c == '_' || c == '-'

/-- The test of the anchored pattern over that class with a plus
quantifier: at least one character and every character in the class. -/
def regexTestCustomCode (s : String) : Bool :=
  !s.data.isEmpty && s.data.all isCodeChar

/-- isValidCustomCode (link-generator.ts lines 73 to 77): pattern test
and length between 3 and 50 inclusive. -/
def isValidCustomCode (s : String) : Bool :=
  regexTestCustomCode s && decide (3 ≤ s.length) && decide (s.length ≤ 50)

/-- customCodeSchema (validation.ts lines 16 to 21): zod min 3, max 50,
and the same anchored pattern. -/
def customCodeSchemaAccepts (s : String) : Bool :=
  decide (3 ≤ s.length) && decide (s.length ≤ 50) && regexTestCustomCode s

/-! ### String helpers for the pipeline
(kernel-reducible stand-ins for the JS string methods used) -/

/-- Whether `pre` is a prefix of `s`, on character lists. -/
def isPrefixL : List Char → List Char → Bool
  | [], _ => true
  | _ :: _, [] => false
  | a :: as, b :: bs => a == b && isPrefixL as bs

/-- Whether `pat` occurs as a contiguous substring of `s`. -/
def hasSubL (pat : List Char) : List Char → Bool
  | [] => isPrefixL pat []
  | s@(_ :: rest) => isPrefixL pat s || hasSubL pat rest

/-- JS `s.includes(pat)`. -/
def strIncludes (s pat : String) : Bool := hasSubL pat.data s.data

/-- JS `s.toLowerCase()` over the character list (the user agents and
patterns involved are ASCII, where the two coincide). -/
def lowerStr (s : String) : String := String.mk (s.data.map Char.toLower)

/-- JS `s.trim()`: strip whitespace from both ends. -/
def trimStr (s : String) : String :=
  String.mk (((s.data.dropWhile Char.isWhitespace).reverse.dropWhile
    Char.isWhitespace).reverse)

/-- JS `s.split(c)[0]`: the prefix before the first occurrence of the
separator, or the whole string when the separator is absent. -/
def beforeFirst (s : String) (sep : Char) : String :=
  String.mk (s.data.takeWhile (fun c => !(c == sep)))

/-- JS truthiness filter on an optional header value: an absent header
and an empty string are both falsy. -/
def truthyStr : Option String → Option String
  | none => none
  | some s => if s == "" then none else some s

/-! ### Device detection (src/src/lib/device-detection.ts) -/

/-- The bot and crawler substring table of isBot
(device-detection.ts lines 160 to 166). -/
def botPatterns : List String :=
  ["bot", "crawler", "spider", "crawling",
   "facebook", "twitter", "google", "bing",
   "yahoo", "slurp", "duckduckbot", "baiduspider",
   "yandexbot", "facebookexternalhit", "twitterbot",
   "linkedinbot", "whatsapp", "telegram", "skype"]

/-- isBot (device-detection.ts lines 159 to 170): lowercase the user
agent and test each pattern for substring containment. -/
def isBot (userAgent : String) : Bool :=
  botPatterns.any (fun pat => strIncludes (lowerStr userAgent) pat)

/-! ### Geolocation (src/src/lib/geolocation.ts) -/

/-- What the external IP-geolocation call yields before the wrapper sees
it: either the parsed payload fields or a failure (network error, bad
response, service-reported error). -/
inductive GeoOutcome where
  | ok (country countryCode region city timezone isp : Option String)
      (latitude longitude : Option Rat)
  | fail (msg : String)
deriving DecidableEq, Repr

/-- The result record getIPGeolocation resolves with: geo fields with
source ip, or the error variant (geolocation.ts lines 21 to 38). -/
structure LocationResult where
  country : Option String := none
  countryCode : Option String := none
  region : Option String := none
  city : Option String := none
  latitude : Option Rat := none
  longitude : Option Rat := none
  timezone : Option String := none
  isp : Option String := none
  source : LocSource := .ip
  error : Option String := none
deriving DecidableEq, Repr

/-- getIPGeolocation (geolocation.ts lines 6 to 39): the catch-all
inside means the call never throws; every failure resolves to the error
variant with source ip. -/
def getIPGeolocation : GeoOutcome → LocationResult
  | .ok country countryCode region city timezone isp latitude longitude =>
    { country := country, countryCode := countryCode, region := region,
      city := city, latitude := latitude, longitude := longitude,
      timezone := timezone, isp := isp, source := .ip, error := none }
  | .fail msg => { source := .ip, error := some msg }

/-- The headers of an incoming redirect request, plus the password query
parameter. -/
structure RedirectRequest where
  userAgentHeader : Option String := none
  refererHeader : Option String := none
  xForwardedFor : Option String := none
  xRealIp : Option String := none
  cfConnectingIp : Option String := none
  passwordParam : Option String := none
deriving DecidableEq, Repr

/-- getClientIP (geolocation.ts lines 126 to 145): first truthy among
x-forwarded-for (first comma-separated entry, trimmed), x-real-ip,
cf-connecting-ip, falling back to the loopback address. -/
def getClientIP (req : RedirectRequest) : String :=
  match truthyStr req.xForwardedFor with
  | some fwd => trimStr (beforeFirst fwd ',')
  | none =>
    match truthyStr req.xRealIp with
    | some s => trimStr s
    | none =>
      match truthyStr req.cfConnectingIp with
      | some s => trimStr s
      | none => "127.0.0.1"

/-! ### Redirect and tracking pipeline (src/src/app/r/[shortCode]/route.ts) -/

/-- The nondeterministic inputs of one tracking attempt: the generated
click and session identifiers, the device classification (parseUserAgent
is a pure total function of the user agent, abstracted as an input
because no claim depends on its output), the geolocation outcome, and
whether the store write throws. -/
structure TrackEnv where
  clickId : String
  sessionId : String
  device : DeviceInfo
  geo : GeoOutcome
  storeFail : Option String := none
deriving DecidableEq, Repr

/-- trackClick (route.ts lines 59 to 106): build the click record from
the headers, the device classification and the geolocation result, then
insert it through addClick.  The surrounding try/catch swallows every
tracking error, so a failing store write leaves the collections as they
were and never propagates. -/
def trackClick (env : TrackEnv) (db : DB) (linkId shortCode : String)
    (req : RedirectRequest) (now : Int) : DB :=
  let ua := req.userAgentHeader.getD ""
  let location := getIPGeolocation env.geo
  let click : Click :=
    { id := env.clickId
      linkId := linkId
      shortCode := shortCode
      timestamp := now
      ipAddress := getClientIP req
      userAgent := ua
      referer := truthyStr req.refererHeader
      location :=
        { country := location.country, countryCode := location.countryCode,
          region := location.region, city := location.city,
          latitude := location.latitude, longitude := location.longitude,
          timezone := location.timezone, isp := location.isp,
          source := location.source }
      device := env.device
      sessionId := env.sessionId }
  match env.storeFail with
  | some _ => db
  | none => addClick db click now

/-- The responses the redirect GET handler can produce.  The password
prompt is the 200 HTML page of generatePasswordPromptHTML; gone carries
the 410 body text. -/
inductive RedirectResponse where
  | notFound
  | gone (body : String)
  | passwordPrompt
  | redirect (url : String)
deriving DecidableEq, Repr

/-- The password gate of route.ts line 33: prompt when the query
parameter is absent or falsy, or differs from the stored password. -/
def passwordNotSatisfied (l : Link) (param : Option String) : Bool :=
  match param with
  | none => true
  | some s => s == "" || !(l.password == some s)

/-- GET (route.ts lines 8 to 57): resolve the code, gate on active,
expired and password state, then track (unless the user agent is a bot)
and redirect with 302.  The catch-all 500 branch of the source guards
exceptions; every step of this model is total, so it has no
corresponding case. -/
def handleRedirectGET (db : DB) (shortCode : String) (req : RedirectRequest)
    (env : TrackEnv) (now : Int) : RedirectResponse × DB :=
  match getLinkByShortCode db shortCode with
  | none => (.notFound, db)
  | some link =>
    if !link.isActive then (.gone "Link is disabled", db)
    else if isLinkExpired link now then (.gone "Link has expired", db)
    else if isPasswordProtected link && passwordNotSatisfied link req.passwordParam then
      (.passwordPrompt, db)
    else
      let ua := req.userAgentHeader.getD ""
      let db2 := if isBot ua then db else trackClick env db link.id shortCode req now
      (.redirect link.originalUrl, db2)

/-! ### PUT /api/links/[id] (the route handler of src/unnamed/part_002) -/

/-- The JSON body of a PUT request.  The five allowed keys carry their
values (inner `Option` is a JSON null); the remaining fields model extra
keys in the body that attempt to set protected Link fields and that the
allowedUpdates filter must drop. -/
structure PutBody where
  title : Option (Option String) := none
  description : Option (Option String) := none
  isActive : Option Bool := none
  password : Option (Option String) := none
  expiresAt : Option (Option Int) := none
  extraId : Option String := none
  extraShortCode : Option String := none
  extraOriginalUrl : Option String := none
  extraCreatedAt : Option Int := none
  extraTotalClicks : Option Nat := none
  extraUniqueClicks : Option Nat := none
  extraLastClickAt : Option (Option Int) := none
  extraUserId : Option (Option String) := none
deriving DecidableEq, Repr

/-- The allowedUpdates filter of the PUT handler (part_002 lines 58 to
65): only title, description, isActive, password and expiresAt survive
into the update object; every extra key is dropped. -/
def putUpdates (b : PutBody) : LinkPatch :=
  { title := b.title
    description := b.description
    isActive := b.isActive
    password := b.password
    expiresAt := b.expiresAt }

/-- Statuses of the PUT handler.  ok200 carries the response payload:
the freshly re-read link with the password field blanked. -/
inductive PutStatus where
  | notFound404
  | badRequest400 (msg : String)
  | serverError500
  | ok200 (data : Option Link)
deriving DecidableEq, Repr

/-- The response spread that blanks the password field. -/
def stripPassword (l : Link) : Link := { l with password := none }

/-- The tail of the PUT handler after the expiry gate: updateLink, then
re-read and answer 200 with the password stripped, or 500 when the
update reported failure (part_002 lines 75 to 92). -/
def handlePUTcore (db : DB) (id : String) (b : PutBody) (now : Int) : PutStatus × DB :=
  match updateLink db id (putUpdates b) now with
  | (false, db1) => (.serverError500, db1)
  | (true, db1) => (.ok200 ((getLinkById db1 id).map stripPassword), db1)

/-- PUT (part_002 lines 43 to 101): 404 when the id resolves to no link;
400 when the body supplies a truthy expiresAt that is not strictly in
the future (`new Date(v) <= new Date()`); otherwise merge the filtered
updates.  A supplied JSON null for expiresAt is falsy and skips the
gate, like the source conjunction `updates.expiresAt && ...`. -/
def handlePUT (db : DB) (id : String) (b : PutBody) (now : Int) : PutStatus × DB :=
  match getLinkById db id with
  | none => (.notFound404, db)
  | some _ =>
    match b.expiresAt with
    | some (some t) =>
      if t ≤ now then (.badRequest400 "Expiration date must be in the future", db)
      else handlePUTcore db id b now
    | _ => handlePUTcore db id b now

/-! ### Sorting and grouping helpers for the analytics code -/

/-- Insert `a` into `l` after every leading element that the comparator
places at or before `a`; building a sort from this is stable, matching
the JS Array.prototype.sort contract. -/
def insertSorted {α : Type} (le : α → α → Bool) (a : α) : List α → List α
  | [] => [a]
  | b :: bs => if le b a then b :: insertSorted le a bs else a :: b :: bs

/-- Stable sort by a boolean comparator, standing for
`.sort((a, b) => ...)` in the analytics code. -/
def sortByLe {α : Type} (le : α → α → Bool) (l : List α) : List α :=
  l.foldl (fun acc a => insertSorted le a acc) []

/-- One step of the JS record-counting idiom
`m[k] = (m[k] || 0) + 1`: increment the first entry with the given key,
or append the key with count one, preserving insertion order. -/
def bump {α : Type} [BEq α] (key : α) : List (α × Nat) → List (α × Nat)
  | [] => [(key, 1)]
  | (k, n) :: rest =>
    if k == key then (k, n + 1) :: rest else (k, n) :: bump key rest

/-- Group a click list by an optional key, counting occurrences; clicks
whose key is absent are skipped.  The result is the Object.entries view
of the record the forEach of getLinkStats builds. -/
def groupCounts {α : Type} [BEq α] (key : Click → Option α) (cs : List Click) :
    List (α × Nat) :=
  cs.foldl (fun acc c => match key c with | some k => bump k acc | none => acc) []

/-- First-match count lookup in an association list, with zero default:
the read side of the record idiom. -/
def lookupCnt {α : Type} [BEq α] (acc : List (α × Nat)) (a : α) : Nat :=
  ((acc.find? (fun p => p.1 == a)).map Prod.snd).getD 0

/-! ### Analytics (src/src/lib/database.ts lines 118 to 226) -/

/-- Math.ceil of an integer ratio with positive divisor. -/
def ceilDiv (a b : Int) : Int := -((-a).fdiv b)

/-- One row of the topLocations rollup. -/
structure LocEntry where
  country : String
  clicks : Nat
  percentage : Rat
deriving DecidableEq, Repr

/-- The LinkStats rollup record (src/src/types/link.ts); the grouped
records are carried as insertion-ordered association lists. -/
structure LinkStats where
  linkId : String
  totalClicks : Nat
  uniqueClicks : Nat
  clicksByDate : List (Int × Nat)
  clicksByCountry : List (String × Nat)
  clicksByDevice : List (DeviceType × Nat)
  clicksByBrowser : List (String × Nat)
  clicksByReferer : List (String × Nat)
  averageClicksPerDay : Rat
  topLocations : List LocEntry
  recentClicks : List Click
deriving DecidableEq, Repr

/-- getLinkStats (database.ts lines 164 to 226): null for an unknown
link; otherwise group that link clicks by date, country, device type,
browser and referer (absent referer bucketed as Direct), compute the
top-10 country rows with percentage over the stored totalClicks counter,
the average clicks per day over max(1, ceil(days since creation)), and
the 50 most recent clicks. -/
def getLinkStats (db : DB) (linkId : String) (now : Int) : Option LinkStats :=
  match getLinkById db linkId with
  | none => none
  | some link =>
    let clicks := getClicksByLinkId db linkId
    let clicksByCountry := groupCounts (fun c => c.location.country) clicks
    let topLocations :=
      (sortByLe (fun a b => decide (b.clicks ≤ a.clicks))
        (clicksByCountry.map (fun p =>
          { country := p.1, clicks := p.2,
            percentage := (p.2 : Rat) / (link.totalClicks : Rat) * 100 }))).take 10
    let daysSinceCreation := max 1 (ceilDiv (now - link.createdAt) msPerDay)
    some
      { linkId := link.id
        totalClicks := link.totalClicks
        uniqueClicks := distinctCount (clicks.map (fun c => c.sessionId))
        clicksByDate := groupCounts (fun c => some (dayOf c.timestamp)) clicks
        clicksByCountry := clicksByCountry
        clicksByDevice := groupCounts (fun c => some c.device.type) clicks
        clicksByBrowser := groupCounts (fun c => some c.device.browser) clicks
        clicksByReferer := groupCounts (fun c => some (c.referer.getD "Direct")) clicks
        averageClicksPerDay := (link.totalClicks : Rat) / (daysSinceCreation : Rat)
        topLocations := topLocations
        recentClicks := (sortByLe (fun a b => decide (b.timestamp ≤ a.timestamp)) clicks).take 50 }

/-- One row of the top-performing-links view. -/
structure TopLinkEntry where
  id : String
  title : String
  shortCode : String
  clicks : Nat
deriving DecidableEq, Repr

/-- One row of the recent-activity view. -/
structure RecentActivityEntry where
  linkId : String
  shortCode : String
  clicks : Nat
  timestamp : Int
  location : Option String
deriving DecidableEq, Repr

/-- The AnalyticsOverview record (src/src/types/analytics section). -/
structure AnalyticsOverview where
  totalLinks : Nat
  totalClicks : Nat
  uniqueClicks : Nat
  clicksToday : Nat
  clicksThisWeek : Nat
  clicksThisMonth : Nat
  topPerformingLinks : List TopLinkEntry
  recentActivity : List RecentActivityEntry
deriving DecidableEq, Repr

/-- The location string of a recent-activity row: city with country when
the city is truthy (a template literal renders an absent country as the
text undefined), otherwise the bare country. -/
def activityLocation (loc : ClickLocation) : Option String :=
  match truthyStr loc.city with
  | some city => some (city ++ ", " ++ loc.country.getD "undefined")
  | none => loc.country

/-- getAnalyticsOverview (database.ts lines 118 to 162): global counts,
rolling 7- and 30-day windows, a same-calendar-date count for today, the
top five links by stored click counter, and the ten most recent clicks
with their display location. -/
def getAnalyticsOverview (db : DB) (now : Int) : AnalyticsOverview :=
  let links := getAllLinks db
  let clicks := getAllClicks db
  { totalLinks := links.length
    totalClicks := clicks.length
    uniqueClicks := distinctCount (clicks.map (fun c => c.sessionId))
    clicksToday := (clicks.filter (fun c => dayOf c.timestamp == dayOf now)).length
    clicksThisWeek := (clicks.filter (fun c => decide (now - 7 * msPerDay ≤ c.timestamp))).length
    clicksThisMonth := (clicks.filter (fun c => decide (now - 30 * msPerDay ≤ c.timestamp))).length
    topPerformingLinks :=
      (sortByLe (fun a b => decide (b.clicks ≤ a.clicks))
        (links.map (fun l =>
          { id := l.id, title := l.title.getD l.originalUrl,
            shortCode := l.shortCode, clicks := l.totalClicks }))).take 5
    recentActivity :=
      ((sortByLe (fun a b => decide (b.timestamp ≤ a.timestamp)) clicks).take 10).map
        (fun c =>
          { linkId := c.linkId, shortCode := c.shortCode, clicks := 1,
            timestamp := c.timestamp, location := activityLocation c.location }) }

/-! ### Spec-side response state machine
(written from the specification wording, to be compared with the
pipeline embedded from the source) -/

/-- The client-visible status classes the specification names for the
redirect endpoint. -/
inductive SpecStatus where
  | status404
  | status410
  | prompt200
  | redirect302 (url : String)
deriving DecidableEq, Repr

/-- Status class of a concrete pipeline response. -/
def statusOf : RedirectResponse → SpecStatus
  | .notFound => .status404
  | .gone _ => .status410
  | .passwordPrompt => .prompt200
  | .redirect url => .redirect302 url

/-- Modelled from the spec: expired means expiresAt set and strictly
before now; no expiresAt means never expired. -/
def specExpired (l : Link) (now : Int) : Bool :=
  match l.expiresAt with
  | none => false
  | some t => decide (t < now)

/-- Modelled from the spec: password-protected means the password field
set and non-empty. -/
def specPasswordRequired (l : Link) : Bool :=
  match l.password with
  | none => false
  | some p => !(p == "")

/-- Modelled from the spec: the supplied password parameter is present
and equal to the stored password. -/
def specPasswordSatisfied (l : Link) (pw : Option String) : Bool :=
  match pw with
  | none => false
  | some s => l.password == some s

/-- Modelled from the spec: the response state machine of the redirect
endpoint, in the stated priority order: 404 when no Link has the code;
410 when found but inactive or expired; the password prompt when a
password is required and not satisfied; otherwise the 302 redirect to
the original URL. -/
def specRedirectStatus (db : DB) (code : String) (pw : Option String) (now : Int) :
    SpecStatus :=
  match getLinkByShortCode db code with
  | none => .status404
  | some l =>
    if !l.isActive || specExpired l now then .status410
    else if specPasswordRequired l && !(specPasswordSatisfied l pw) then .prompt200
    else .redirect302 l.originalUrl

/-! ### Concrete fixtures used by the witnesses and counterexamples -/

/-- A plain active link with no password and no expiry. -/
def wLink : Link :=
  { id := "L1", originalUrl := "https://example.com", shortCode := "abc",
    createdAt := 0, updatedAt := 0, isActive := true,
    totalClicks := 0, uniqueClicks := 0 }

/-- A store holding just that link and no clicks. -/
def wDB : DB := { links := [wLink], clicks := [] }

/-- A fixed device classification. -/
def wDevice : DeviceInfo :=
  { type := .desktop, browser := "Chrome", browserVersion := "120",
    os := "Windows", osVersion := "10/11" }

/-- A first click on the fixture link. -/
def wClick : Click :=
  { id := "c1", linkId := "L1", shortCode := "abc", timestamp := 5,
    ipAddress := "127.0.0.1", userAgent := "agent",
    location := { source := .ip }, device := wDevice, sessionId := "s1" }

/-- A tracking environment in which both the geolocation lookup and the
store write fail. -/
def wEnvFail : TrackEnv :=
  { clickId := "c2", sessionId := "s2", device := wDevice,
    geo := .fail "network down", storeFail := some "disk full" }

/-- A plain browser request with no password parameter. -/
def wReq : RedirectRequest := { userAgentHeader := some "Mozilla/5.0" }

/-- A second link whose short code collides with the fixture link. -/
def wLinkDup : Link :=
  { id := "L2", originalUrl := "https://other.example", shortCode := "abc",
    createdAt := 1, updatedAt := 1, isActive := true,
    totalClicks := 0, uniqueClicks := 0 }

/-- A link owning the code every all-zero draw produces at length 8. -/
def wLinkAAA : Link :=
  { id := "LA", originalUrl := "https://a.example", shortCode := "AAAAAAAA",
    createdAt := 0, updatedAt := 0, isActive := true,
    totalClicks := 0, uniqueClicks := 0 }

/-- A store that makes every length-8 all-zero draw collide. -/
def wDBAAA : DB := { links := [wLinkAAA], clicks := [] }

/-- The all-zero random stream: every pick is the first alphabet
character. -/
def seqZero : Nat → Nat := fun _ => 0

/-- The empty store. -/
def emptyDB : DB := { links := [], clicks := [] }

/-- A 51-character alphanumeric string. -/
def s51 : String := String.mk (List.replicate 51 'a')

/-- A link whose stored click counter (4) deliberately differs from the
number of stored click records (1), separating the stored denominator
from the recomputed one. -/
def wLinkStats : Link :=
  { id := "L1", originalUrl := "https://example.com", shortCode := "abc",
    createdAt := 0, updatedAt := 0, isActive := true,
    totalClicks := 4, uniqueClicks := 0 }

/-- A click from Germany on that link. -/
def wClickDE : Click :=
  { id := "c1", linkId := "L1", shortCode := "abc", timestamp := 5,
    ipAddress := "127.0.0.1", userAgent := "agent",
    location := { country := some "Germany", source := .ip },
    device := wDevice, sessionId := "s1" }

/-- The store pairing the skewed link with its single click. -/
def wDBStats : DB := { links := [wLinkStats], clicks := [wClickDE] }

/-- A store with one link and clicks on it and on another id. -/
def wDBDel : DB :=
  { links := [wLink],
    clicks := [wClick, { wClick with id := "c9", linkId := "L9", shortCode := "zzz" }] }

/-- A PUT body that updates the title, supplies no expiry, and smuggles
extra keys aimed at protected fields. -/
def wPutBody : PutBody :=
  { title := some (some "new title"), extraId := some "HACK",
    extraShortCode := some "stolen", extraTotalClicks := some 999 }

/-! ### Helper lemmas -/

theorem updateFirst_isSome_of_mem {α : Type} {p : α → Bool} {f : α → α} :
    ∀ {xs : List α} {x : α}, x ∈ xs → p x = true → ∃ ys, updateFirst p f xs = some ys := by
  intro xs
  induction xs with
  | nil => intro x hx; cases hx
  | cons a as ih =>
    intro x hx hpx
    by_cases ha : p a = true
    · exact ⟨f a :: as, by simp [updateFirst, ha]⟩
    · rcases List.mem_cons.mp hx with rfl | hmem
      · exact absurd hpx ha
      · obtain ⟨ys, hys⟩ := ih hmem hpx
        exact ⟨a :: ys, by simp [updateFirst, ha, hys]⟩

theorem find?_updateFirst {α : Type} {p : α → Bool} {f : α → α}
    (hf : ∀ a, p (f a) = p a) :
    ∀ {xs ys : List α}, updateFirst p f xs = some ys →
      ys.find? p = (xs.find? p).map f := by
  intro xs
  induction xs with
  | nil => intro ys h; simp [updateFirst] at h
  | cons a as ih =>
    intro ys h
    rw [updateFirst] at h
    by_cases ha : p a = true
    · rw [if_pos ha] at h
      cases h
      simp [List.find?_cons, hf a, ha]
    · have hpa : p a = false := by simpa using ha
      rw [if_neg (by simp [hpa])] at h
      cases hrec : updateFirst p f as with
      | none => rw [hrec] at h; simp at h
      | some ys' =>
        rw [hrec, Option.map_some'] at h
        cases h
        simp [List.find?_cons, hpa, ih hrec]

theorem mem_insertSorted {α : Type} (le : α → α → Bool) (a x : α) :
    ∀ (l : List α), x ∈ insertSorted le a l ↔ x = a ∨ x ∈ l := by
  intro l
  induction l with
  | nil => simp [insertSorted]
  | cons b bs ih =>
    cases h : le b a with
    | true =>
      simp only [insertSorted, h, if_true, List.mem_cons, ih]
      tauto
    | false =>
      simp only [insertSorted, h, Bool.false_eq_true, if_false, List.mem_cons]

theorem mem_foldl_insertSorted {α : Type} (le : α → α → Bool) (x : α) :
    ∀ (l acc : List α),
      x ∈ l.foldl (fun acc a => insertSorted le a acc) acc ↔ x ∈ acc ∨ x ∈ l := by
  intro l
  induction l with
  | nil => simp
  | cons a as ih =>
    intro acc
    simp only [List.foldl_cons, ih, mem_insertSorted, List.mem_cons]
    tauto

theorem mem_sortByLe {α : Type} (le : α → α → Bool) (x : α) (l : List α) :
    x ∈ sortByLe le l ↔ x ∈ l := by
  simp [sortByLe, mem_foldl_insertSorted]

theorem lookupCnt_nil {α : Type} [BEq α] (a : α) : lookupCnt ([] : List (α × Nat)) a = 0 := by
  simp [lookupCnt]

theorem lookupCnt_cons {α : Type} [BEq α] (k : α) (n : Nat) (acc : List (α × Nat)) (a : α) :
    lookupCnt ((k, n) :: acc) a = if k == a then n else lookupCnt acc a := by
  cases h : k == a with
  | true => simp [lookupCnt, List.find?_cons, h]
  | false => simp [lookupCnt, List.find?_cons, h]

theorem lookupCnt_bump {α : Type} [BEq α] [LawfulBEq α] (b a : α) :
    ∀ (acc : List (α × Nat)),
      lookupCnt (bump b acc) a = lookupCnt acc a + (if b == a then 1 else 0) := by
  intro acc
  induction acc with
  | nil =>
    cases h : b == a with
    | true => simp [bump, lookupCnt_cons, lookupCnt_nil, h]
    | false => simp [bump, lookupCnt_cons, lookupCnt_nil, h]
  | cons q rest ih =>
    obtain ⟨k, n⟩ := q
    cases hkb : k == b with
    | true =>
      have hk : k = b := eq_of_beq hkb
      subst hk
      simp only [bump, beq_self_eq_true]
      rw [if_pos trivial]
      cases hka : k == a with
      | true => simp [lookupCnt_cons, hka]
      | false => simp [lookupCnt_cons, hka]
    | false =>
      simp only [bump, hkb]
      rw [if_neg (by simp)]
      cases hka : k == a with
      | true =>
        have hba : (b == a) = false := by
          apply beq_false_of_ne
          intro hba
          have hk : k = a := eq_of_beq hka
          exact absurd (beq_iff_eq.mpr (hk.trans hba.symm)) (by simp [hkb])
        simp [lookupCnt_cons, hka, hba]
      | false => simp [lookupCnt_cons, hka, ih]

theorem bump_keys_cases {α : Type} [BEq α] [LawfulBEq α] (b : α) :
    ∀ (acc : List (α × Nat)),
      (bump b acc).map Prod.fst = acc.map Prod.fst ∨
      ((bump b acc).map Prod.fst = acc.map Prod.fst ++ [b] ∧
        b ∉ acc.map Prod.fst) := by
  intro acc
  induction acc with
  | nil => right; simp [bump]
  | cons q rest ih =>
    obtain ⟨k, n⟩ := q
    by_cases hkb : k = b
    · subst hkb; left; simp [bump]
    · rcases ih with h | ⟨h, hnot⟩
      · left; simp [bump, beq_false_of_ne hkb, h]
      · right
        constructor
        · simp [bump, beq_false_of_ne hkb, h]
        · simp only [List.map_cons, List.mem_cons]
          rintro (rfl | hmem)
          · exact hkb rfl
          · exact hnot hmem

theorem nodup_append_single {α : Type} (b : α) :
    ∀ (l : List α), l.Nodup → b ∉ l → (l ++ [b]).Nodup := by
  intro l
  induction l with
  | nil => intro _ _; simp
  | cons a as ih =>
    intro h1 h2
    rw [List.nodup_cons] at h1
    rw [List.cons_append, List.nodup_cons]
    constructor
    · intro hmem
      rcases List.mem_append.mp hmem with h | h
      · exact h1.1 h
      · exact h2 (by simp at h; simp [h])
    · exact ih h1.2 (fun hb => h2 (List.mem_cons_of_mem _ hb))

theorem bump_keys_nodup {α : Type} [BEq α] [LawfulBEq α] (b : α)
    (acc : List (α × Nat)) (h : (acc.map Prod.fst).Nodup) :
    ((bump b acc).map Prod.fst).Nodup := by
  rcases bump_keys_cases b acc with hc | ⟨hc, hnot⟩
  · rw [hc]; exact h
  · rw [hc]; exact nodup_append_single b _ h hnot

theorem lookupCnt_of_mem_nodup {α : Type} [BEq α] [LawfulBEq α] :
    ∀ (acc : List (α × Nat)), (acc.map Prod.fst).Nodup →
      ∀ q ∈ acc, lookupCnt acc q.1 = q.2 := by
  intro acc
  induction acc with
  | nil => intro _ q hq; cases hq
  | cons p rest ih =>
    intro hnd q hq
    obtain ⟨k, n⟩ := p
    rw [List.map_cons, List.nodup_cons] at hnd
    rcases List.mem_cons.mp hq with rfl | hmem
    · simp [lookupCnt_cons]
    · have hk : (k == q.1) = false := by
        apply beq_false_of_ne
        intro hkq
        exact absurd (List.mem_map_of_mem Prod.fst hmem) (hkq ▸ hnd.1)
      simp only [lookupCnt_cons, hk, Bool.false_eq_true, if_false]
      exact ih hnd.2 q hmem

theorem lookupCnt_groupCounts_aux {α : Type} [BEq α] [LawfulBEq α]
    (key : Click → Option α) (a : α) :
    ∀ (cs : List Click) (acc : List (α × Nat)),
      lookupCnt
        (cs.foldl (fun acc c => match key c with | some k => bump k acc | none => acc) acc)
        a =
      lookupCnt acc a + (cs.filter (fun c => key c == some a)).length := by
  intro cs
  induction cs with
  | nil => intro acc; simp
  | cons c rest ih =>
    intro acc
    rw [List.foldl_cons, ih]
    cases hk : key c with
    | none => simp [List.filter_cons, hk]
    | some k =>
      by_cases hka : k = a
      · subst hka
        simp [List.filter_cons, hk, lookupCnt_bump]
        omega
      · simp [List.filter_cons, hk, lookupCnt_bump, beq_false_of_ne hka,
          Option.some.injEq]

theorem groupCounts_keys_nodup {α : Type} [BEq α] [LawfulBEq α]
    (key : Click → Option α) :
    ∀ (cs : List Click) (acc : List (α × Nat)), (acc.map Prod.fst).Nodup →
      (((cs.foldl (fun acc c => match key c with | some k => bump k acc | none => acc) acc)).map
        Prod.fst).Nodup := by
  intro cs
  induction cs with
  | nil => intro acc h; simpa using h
  | cons c rest ih =>
    intro acc h
    rw [List.foldl_cons]
    cases hk : key c with
    | none => simpa [hk] using ih acc h
    | some k =>
      have := bump_keys_nodup k acc h
      simpa [hk] using ih (bump k acc) this

theorem lookupCnt_groupCounts {α : Type} [BEq α] [LawfulBEq α]
    (key : Click → Option α) (cs : List Click) (a : α) :
    lookupCnt (groupCounts key cs) a = (cs.filter (fun c => key c == some a)).length := by
  have h := lookupCnt_groupCounts_aux key a cs []
  rw [lookupCnt_nil] at h
  simpa [groupCounts] using h

theorem groupCounts_counts {α : Type} [BEq α] [LawfulBEq α]
    (key : Click → Option α) (cs : List Click) :
    ∀ q ∈ groupCounts key cs, q.2 = (cs.filter (fun c => key c == some q.1)).length := by
  intro q hq
  have hnd : ((groupCounts key cs).map Prod.fst).Nodup := by
    have h := groupCounts_keys_nodup key cs [] (by simp)
    simpa [groupCounts] using h
  have h1 : lookupCnt (groupCounts key cs) q.1 = q.2 :=
    lookupCnt_of_mem_nodup _ hnd q hq
  rw [lookupCnt_groupCounts] at h1
  omega

theorem genAttempts_ok {db : DB} {seq : Nat → Nat} :
    ∀ {fuel off : Nat} {code : String}, genAttempts db seq fuel off = some code →
      code.length = 8 ∧ getLinkByShortCode db code = none ∧
        ∃ off2, code = generateRandomCode 8 seq off2 := by
  intro fuel
  induction fuel with
  | zero => intro off code h; simp [genAttempts] at h
  | succ n ih =>
    intro off code h
    simp only [genAttempts] at h
    by_cases hc : (getLinkByShortCode db (generateRandomCode 8 seq off)).isSome = true
    · rw [if_pos hc] at h
      exact ih h
    · rw [if_neg hc] at h
      cases h
      refine ⟨?_, Option.not_isSome_iff_eq_none.mp hc, off, rfl⟩
      simp [generateRandomCode, String.length]

theorem charAtDraw_mem (n : Nat) : charAtDraw n ∈ alphabetChars := by
  have hlen : alphabetChars.length = 62 := by decide
  have h : n % 62 < alphabetChars.length := by
    rw [hlen]; exact Nat.mod_lt _ (by norm_num)
  rw [charAtDraw, List.getD_eq_getElem?_getD, List.getElem?_eq_getElem h]
  exact List.getElem_mem h

theorem generateRandomCode_chars (len : Nat) (seq : Nat → Nat) (off : Nat) :
    ∀ ch ∈ (generateRandomCode len seq off).data, ch ∈ alphabetChars := by
  intro ch hch
  simp only [generateRandomCode] at hch
  obtain ⟨i, _, rfl⟩ := List.mem_map.mp hch
  exact charAtDraw_mem _

theorem updateLink_spec (db : DB) (id : String) (patch : LinkPatch) (now : Int)
    (link0 : Link) (h0 : getLinkById db id = some link0) (hpid : patch.id = none) :
    (updateLink db id patch now).1 = true ∧
    (updateLink db id patch now).2.clicks = db.clicks ∧
    getLinkById (updateLink db id patch now).2 id = some (applyPatch link0 patch now) := by
  have h0f : db.links.find? (fun l => l.id == id) = some link0 := h0
  have hmem : link0 ∈ db.links := List.mem_of_find?_eq_some h0f
  have hp := List.find?_some h0f
  obtain ⟨ys, hys⟩ :=
    @updateFirst_isSome_of_mem Link (fun l => l.id == id)
      (fun l => applyPatch l patch now) db.links link0 hmem hp
  have hf : ∀ a : Link, ((applyPatch a patch now).id == id) = (a.id == id) := by
    intro a
    simp [applyPatch, hpid]
  rw [updateLink, hys]
  refine ⟨rfl, rfl, ?_⟩
  simp only [getLinkById, getAllLinks]
  rw [find?_updateFirst hf hys, h0f, Option.map_some']

theorem addClick_spec (db : DB) (c : Click) (now : Int) (link0 : Link)
    (h0 : getLinkById db c.linkId = some link0) :
    getClicksByLinkId (addClick db c now) c.linkId = getClicksByLinkId db c.linkId ++ [c] ∧
    getLinkById (addClick db c now) c.linkId = some (applyPatch link0
      { totalClicks := some (getClicksByLinkId db c.linkId ++ [c]).length
        uniqueClicks := some (distinctCount
          ((getClicksByLinkId db c.linkId ++ [c]).map (fun k => k.sessionId)))
        lastClickAt := some
          ((getClicksByLinkId db c.linkId ++ [c]).getLast?.map (fun k => k.timestamp)) }
      now) := by
  have hfilter : getClicksByLinkId { db with clicks := db.clicks ++ [c] } c.linkId
      = getClicksByLinkId db c.linkId ++ [c] := by
    simp [getClicksByLinkId, getAllClicks, List.filter_append]
  have h0' : getLinkById { db with clicks := db.clicks ++ [c] } c.linkId = some link0 := h0
  have hspec := updateLink_spec { db with clicks := db.clicks ++ [c] } c.linkId
    { totalClicks :=
        some (getClicksByLinkId { db with clicks := db.clicks ++ [c] } c.linkId).length
      uniqueClicks := some (distinctCount
        ((getClicksByLinkId { db with clicks := db.clicks ++ [c] } c.linkId).map
          (fun k => k.sessionId)))
      lastClickAt := some
        ((getClicksByLinkId { db with clicks := db.clicks ++ [c] } c.linkId).getLast?.map
          (fun k => k.timestamp)) }
    now link0 h0' rfl
  constructor
  · have hclk : (addClick db c now).clicks = db.clicks ++ [c] := hspec.2.1
    simp [getClicksByLinkId, getAllClicks, hclk, List.filter_append]
  · have h2 : getLinkById (addClick db c now) c.linkId = some (applyPatch link0
        { totalClicks :=
            some (getClicksByLinkId { db with clicks := db.clicks ++ [c] } c.linkId).length
          uniqueClicks := some (distinctCount
            ((getClicksByLinkId { db with clicks := db.clicks ++ [c] } c.linkId).map
              (fun k => k.sessionId)))
          lastClickAt := some
            ((getClicksByLinkId { db with clicks := db.clicks ++ [c] } c.linkId).getLast?.map
              (fun k => k.timestamp)) } now) := hspec.2.2
    rw [hfilter] at h2
    exact h2

theorem specExpired_eq (l : Link) (now : Int) : specExpired l now = isLinkExpired l now := rfl

theorem specPasswordRequired_eq (l : Link) :
    specPasswordRequired l = isPasswordProtected l := rfl

theorem password_gate_eq (l : Link) (pw : Option String) :
    (isPasswordProtected l && passwordNotSatisfied l pw) =
    (specPasswordRequired l && !(specPasswordSatisfied l pw)) := by
  cases hp : l.password with
  | none =>
    simp [isPasswordProtected, passwordNotSatisfied, specPasswordRequired,
      specPasswordSatisfied, hp]
  | some p =>
    cases pw with
    | none =>
      simp [isPasswordProtected, passwordNotSatisfied, specPasswordRequired,
        specPasswordSatisfied, hp]
    | some s =>
      by_cases hpe : p = ""
      · subst hpe
        simp [isPasswordProtected, specPasswordRequired, hp]
      · have hpne : (p == "") = false := beq_false_of_ne hpe
        by_cases hs : s = ""
        · subst hs
          simp [isPasswordProtected, passwordNotSatisfied, specPasswordRequired,
            specPasswordSatisfied, hp, hpne]
        · have hsne : (s == "") = false := beq_false_of_ne hs
          simp [isPasswordProtected, passwordNotSatisfied, specPasswordRequired,
            specPasswordSatisfied, hp, hpne, hsne]

/-! ### Claim theorems -/

/-- Claim C2: for every incoming redirect request, the response of the
embedded GET handler is exactly the status the specification state
machine assigns, in its stated order: 404 when no Link has the short
code; 410 when the Link is inactive or expired; the 200 HTML password
prompt when a password is required and the supplied parameter is absent
or wrong; otherwise a 302 redirect to the original URL.  The equality
holds for every tracking environment, including failing ones, and the
model handler is total, so no input yields the 500 branch the source
reserves for unexpected exceptions. -/
theorem redirect_pipeline_matches_spec (db : DB) (code : String) (req : RedirectRequest)
    (env : TrackEnv) (now : Int) :
    statusOf (handleRedirectGET db code req env now).1 =
      specRedirectStatus db code req.passwordParam now := by
  simp only [handleRedirectGET, specRedirectStatus]
  cases h : getLinkByShortCode db code with
  | none => rfl
  | some link =>
    cases hact : link.isActive with
    | false => simp [hact, statusOf, specExpired_eq]
    | true =>
      cases hexp : isLinkExpired link now with
      | true => simp [hact, hexp, statusOf, specExpired_eq]
      | false =>
        simp only [hact, Bool.not_true, Bool.false_eq_true, if_false,
          specExpired_eq, hexp, Bool.or_false]
        rw [← password_gate_eq]
        cases hpw : isPasswordProtected link && passwordNotSatisfied link req.passwordParam with
        | true => simp [hpw, statusOf]
        | false => simp [hpw, statusOf]

/-- Claim C3: once a request reaches the tracking-and-redirect state
(link found, active, not expired, password absent or satisfied), the
response is the 302 redirect to the original URL for every tracking
environment, in particular when geolocation resolution fails or the
store insert raises; the tracking error never changes the response. -/
theorem tracking_failure_preserves_redirect (db : DB) (code : String)
    (req : RedirectRequest) (env : TrackEnv) (now : Int) (link : Link)
    (h1 : getLinkByShortCode db code = some link)
    (h2 : link.isActive = true)
    (h3 : isLinkExpired link now = false)
    (h4 : (isPasswordProtected link && passwordNotSatisfied link req.passwordParam) = false) :
    (handleRedirectGET db code req env now).1 = .redirect link.originalUrl := by
  simp only [handleRedirectGET]
  rw [h1]
  simp [h2, h3, h4]

/-- Witness for C3 at a concrete store: both the geolocation lookup and
the store write fail, and the response is still the 302 redirect. -/
theorem tracking_failure_preserves_redirect_witness :
    (handleRedirectGET wDB "abc" wReq wEnvFail 5).1 = .redirect "https://example.com" :=
  tracking_failure_preserves_redirect wDB "abc" wReq wEnvFail 5 wLink
    (by decide) (by decide) (by decide) (by decide)

/-- Counterexample for claim C4: insertLink (createLink) performs no
short-code conflict check.  Starting from a store that already assigns
the code abc, inserting a second link with the same code does not fail:
it appends the link, leaving two Links with the same shortCode. -/
theorem insertLink_conflict_unchecked_cex :
    getLinkByShortCode wDB "abc" = some wLink ∧
    wLinkDup.shortCode = "abc" ∧
    (createLink wDB wLinkDup).links = [wLink, wLinkDup] ∧
    ((createLink wDB wLinkDup).links.filter (fun l => l.shortCode == "abc")).length = 2 := by
  refine ⟨by decide, by decide, by decide, by decide⟩

/-- Claim C4 as amended: createLink appends unconditionally and touches
nothing else; short-code uniqueness is enforced only by its caller,
where generateUniqueShortCode rejects a custom code that already
resolves to an existing Link with the conflict error the POST route
maps to HTTP 409. -/
theorem insertLink_appends_uniqueness_by_callers :
    (∀ (db : DB) (l : Link),
      (createLink db l).links = db.links ++ [l] ∧ (createLink db l).clicks = db.clicks) ∧
    (∀ (db : DB) (seq : Nat → Nat) (c : String), c ≠ "" →
      (getLinkByShortCode db c).isSome = true →
      generateUniqueShortCode db seq (some c) = .error "Custom short code already exists") := by
  constructor
  · intro db l
    exact ⟨rfl, rfl⟩
  · intro db seq c hc hs
    have hcb : (c == "") = false := beq_false_of_ne hc
    simp [generateUniqueShortCode, hcb, hs]

/-- Witness for the amended C4 at concrete inputs: the duplicate insert
appends, and the caller-side check rejects the taken custom code. -/
theorem insertLink_appends_uniqueness_by_callers_witness :
    (createLink wDB wLinkDup).links = wDB.links ++ [wLinkDup] ∧
    generateUniqueShortCode wDB seqZero (some "abc") =
      .error "Custom short code already exists" :=
  ⟨(insertLink_appends_uniqueness_by_callers.1 wDB wLinkDup).1,
   insertLink_appends_uniqueness_by_callers.2 wDB seqZero "abc" (by decide) (by decide)⟩

/-- Counterexample for claim C5: when every one of the ten length-8
draws collides with an existing code, the single length-10 retry is
returned, so the returned code does not always have length 8.  With the
all-zero draw stream and a store owning AAAAAAAA, the call succeeds
with the ten-character code AAAAAAAAAA. -/
theorem shortCode_length8_cex :
    generateUniqueShortCode wDBAAA seqZero none = .ok "AAAAAAAAAA" ∧
    ("AAAAAAAAAA" : String).length = 10 ∧
    ¬("AAAAAAAAAA" : String).length = 8 :=
  ⟨rfl, by decide, by decide⟩

/-- Claim C5 as amended: a successful no-custom-code generation returns
a code of length 8, or of length 10 when all ten length-8 attempts
collided; the code is drawn from the 62-character alphanumeric alphabet
and never equals a code already assigned to an existing Link; if the
length-10 retry also collides the call fails (with the generation
error), never silently reusing a code. -/
theorem shortCode_generation_ok_spec (db : DB) (seq : Nat → Nat) (code : String)
    (h : generateUniqueShortCode db seq none = .ok code) :
    (code.length = 8 ∨ code.length = 10) ∧
    (∀ ch ∈ code.data, ch ∈ alphabetChars) ∧
    getLinkByShortCode db code = none := by
  simp only [generateUniqueShortCode, generateRandomUniqueCode] at h
  cases hga : genAttempts db seq 10 0 with
  | some c0 =>
    rw [hga] at h
    cases h
    obtain ⟨hlen, hnone, off2, hco⟩ := genAttempts_ok hga
    refine ⟨Or.inl hlen, ?_, hnone⟩
    intro ch hch
    rw [hco] at hch
    exact generateRandomCode_chars 8 seq off2 ch hch
  | none =>
    rw [hga] at h
    by_cases hc : (getLinkByShortCode db (generateRandomCode 10 seq 80)).isSome = true
    · rw [if_pos hc] at h
      simp at h
    · rw [if_neg hc] at h
      cases h
      refine ⟨Or.inr ?_, generateRandomCode_chars 10 seq 80,
        Option.not_isSome_iff_eq_none.mp hc⟩
      simp [generateRandomCode, String.length]

/-- Witness for the amended C5: on the empty store the first draw is
free and is returned, an 8-character alphabet code assigned to no one. -/
theorem shortCode_generation_ok_spec_witness :
    generateUniqueShortCode emptyDB seqZero none = .ok "AAAAAAAA" ∧
    ((("AAAAAAAA" : String).length = 8 ∨ ("AAAAAAAA" : String).length = 10) ∧
      (∀ ch ∈ ("AAAAAAAA" : String).data, ch ∈ alphabetChars) ∧
      getLinkByShortCode emptyDB "AAAAAAAA" = none) :=
  ⟨rfl, shortCode_generation_ok_spec emptyDB seqZero "AAAAAAAA" rfl⟩

/-- Claim C1: after insertClick (addClick) for a click whose owning
Link exists, the stored counters of that Link equal the values
derivable from the Click collection: totalClicks is the number of Click
records with that linkId, uniqueClicks the number of distinct sessionId
values among them, and lastClickAt the timestamp of the last-inserted
click; in particular, after the first click of a link, getLinkById
reflects totalClicks 1, uniqueClicks 1 and lastClickAt equal to the
click timestamp. -/
theorem insertClick_recomputes_counters (db : DB) (c : Click) (now : Int)
    (h : (getLinkById db c.linkId).isSome = true) :
    ∃ l, getLinkById (addClick db c now) c.linkId = some l ∧
      l.totalClicks = (getClicksByLinkId (addClick db c now) c.linkId).length ∧
      l.uniqueClicks = distinctCount
        ((getClicksByLinkId (addClick db c now) c.linkId).map (fun k => k.sessionId)) ∧
      l.lastClickAt = some c.timestamp ∧
      (getClicksByLinkId db c.linkId = [] → l.totalClicks = 1 ∧ l.uniqueClicks = 1) := by
  obtain ⟨link0, h0⟩ := Option.isSome_iff_exists.mp h
  obtain ⟨hclk, hlink⟩ := addClick_spec db c now link0 h0
  refine ⟨_, hlink, ?_, ?_, ?_, ?_⟩
  · rw [hclk]
    simp [applyPatch]
  · rw [hclk]
    simp [applyPatch]
  · simp [applyPatch, List.getLast?_concat]
  · intro hempty
    constructor
    · simp [applyPatch, hempty]
    · simp [applyPatch, hempty, distinctCount]

/-- Witness for C1: the first click on the fixture link yields stored
counters 1, 1 and the click timestamp. -/
theorem insertClick_recomputes_counters_witness :
    (getLinkById wDB wClick.linkId).isSome = true ∧
    (∃ l, getLinkById (addClick wDB wClick 5) wClick.linkId = some l ∧
      l.totalClicks = (getClicksByLinkId (addClick wDB wClick 5) wClick.linkId).length ∧
      l.uniqueClicks = distinctCount
        ((getClicksByLinkId (addClick wDB wClick 5) wClick.linkId).map (fun k => k.sessionId)) ∧
      l.lastClickAt = some wClick.timestamp ∧
      (getClicksByLinkId wDB wClick.linkId = [] →
        l.totalClicks = 1 ∧ l.uniqueClicks = 1)) :=
  ⟨by decide, insertClick_recomputes_counters wDB wClick 5 (by decide)⟩

/-- Claim C6: for every known link, linkStats computes each top-location
row as that country's click count paired with the percentage
clicks / link.totalClicks * 100 over the stored counter (which the
quantification over arbitrary stores shows may differ from the local
sum), and averageClicksPerDay as
totalClicks / max(1, ceil((now - createdAt) / 1 day)). -/
theorem linkStats_percentage_and_average (db : DB) (id : String) (now : Int) (link : Link)
    (hl : getLinkById db id = some link) :
    (getLinkStats db id now).isSome = true ∧
    ∀ stats, getLinkStats db id now = some stats →
      stats.averageClicksPerDay =
        (link.totalClicks : Rat) / ((max 1 (ceilDiv (now - link.createdAt) msPerDay) : Int) : Rat) ∧
      ∀ e ∈ stats.topLocations,
        e.clicks = ((getClicksByLinkId db id).filter
          (fun k => k.location.country == some e.country)).length ∧
        e.percentage = (e.clicks : Rat) / (link.totalClicks : Rat) * 100 := by
  constructor
  · simp [getLinkStats, hl]
  · intro stats hs
    simp only [getLinkStats, hl, Option.some.injEq] at hs
    subst hs
    constructor
    · rfl
    · intro e he
      have he2 := List.mem_of_mem_take he
      rw [mem_sortByLe] at he2
      obtain ⟨p, hp, rfl⟩ := List.mem_map.mp he2
      have hcount := groupCounts_counts (fun k => k.location.country)
        (getClicksByLinkId db id) p hp
      exact ⟨hcount, rfl⟩

/-- Witness for C6 at a store whose stored counter (4) differs from the
recomputed click count (1): the percentage still divides by the stored
counter. -/
theorem linkStats_percentage_and_average_witness :
    getLinkById wDBStats "L1" = some wLinkStats ∧
    ((getLinkStats wDBStats "L1" 5).isSome = true ∧
    ∀ stats, getLinkStats wDBStats "L1" 5 = some stats →
      stats.averageClicksPerDay = (wLinkStats.totalClicks : Rat) /
        ((max 1 (ceilDiv (5 - wLinkStats.createdAt) msPerDay) : Int) : Rat) ∧
      ∀ e ∈ stats.topLocations,
        e.clicks = ((getClicksByLinkId wDBStats "L1").filter
          (fun k => k.location.country == some e.country)).length ∧
        e.percentage = (e.clicks : Rat) / (wLinkStats.totalClicks : Rat) * 100) :=
  ⟨by decide, linkStats_percentage_and_average wDBStats "L1" 5 wLinkStats (by decide)⟩

/-- Claim C7: deleting a present link id returns true, removes exactly
the Links with that id, drops every Click whose linkId matches (so a
subsequent listClicksForLink of that id is empty), and leaves the
clicks of every other link untouched. -/
theorem deleteLink_cascades (db : DB) (id : String) (l : Link)
    (hl : l ∈ db.links) (hid : l.id = id) :
    (deleteLink db id).1 = true ∧
    (deleteLink db id).2.links = db.links.filter (fun x => !(x.id == id)) ∧
    getClicksByLinkId (deleteLink db id).2 id = [] ∧
    (∀ j, j ≠ id → getClicksByLinkId (deleteLink db id).2 j = getClicksByLinkId db j) := by
  have hlt : (db.links.filter (fun x => !(x.id == id))).length < db.links.length := by
    apply List.length_filter_lt_length_iff_exists.mpr
    exact ⟨l, hl, by simp [hid]⟩
  have hne : ((db.links.filter (fun x => !(x.id == id))).length == db.links.length) = false :=
    beq_false_of_ne (Nat.ne_of_lt hlt)
  have hdel : deleteLink db id = (true,
      { links := db.links.filter (fun x => !(x.id == id)),
        clicks := db.clicks.filter (fun c => !(c.linkId == id)) }) := by
    simp [deleteLink, hne]
  rw [hdel]
  refine ⟨rfl, rfl, ?_, ?_⟩
  · simp only [getClicksByLinkId, getAllClicks]
    rw [List.filter_filter]
    apply List.filter_eq_nil_iff.mpr
    intro k _
    cases hk : k.linkId == id <;> simp [hk]
  · intro j hj
    simp only [getClicksByLinkId, getAllClicks]
    rw [List.filter_filter]
    apply List.filter_congr
    intro k _
    cases hk : k.linkId == j with
    | false => simp [hk]
    | true =>
      have hkid : (k.linkId == id) = false := by
        apply beq_false_of_ne
        intro hkj
        exact hj ((eq_of_beq hk).symm.trans hkj)
      simp [hk, hkid]

/-- Witness for C7 at a concrete store with one link and two clicks,
one owned by the link and one by another id: delete returns true, the
owned click list becomes empty, the foreign click list is unchanged. -/
theorem deleteLink_cascades_witness :
    (deleteLink wDBDel "L1").1 = true ∧
    (deleteLink wDBDel "L1").2.links = wDBDel.links.filter (fun x => !(x.id == "L1")) ∧
    getClicksByLinkId (deleteLink wDBDel "L1").2 "L1" = [] ∧
    (∀ j, j ≠ "L1" →
      getClicksByLinkId (deleteLink wDBDel "L1").2 j = getClicksByLinkId wDBDel j) :=
  deleteLink_cascades wDBDel "L1" wLink (by decide) (by decide)

/-- Counterexample for claim C8: the validators cap the length at 50,
not 52.  A 51-character alphanumeric string satisfies the claimed
acceptance condition (alphanumeric, hyphen or underscore characters,
length between 3 and 52) yet both isValidCustomCode and
customCodeSchema reject it. -/
theorem customCode_len51_cex :
    isValidCustomCode s51 = false ∧ customCodeSchemaAccepts s51 = false ∧
    s51.length = 51 ∧ (∀ ch ∈ s51.data, isCodeChar ch = true) ∧
    3 ≤ s51.length ∧ s51.length ≤ 52 := by
  decide

/-- Claim C8 as amended: a string is accepted as a custom short code iff
it consists solely of alphanumeric characters, hyphens and underscores
and its length is between 3 and 50 inclusive; isValidCustomCode and
customCodeSchema agree on every string. -/
theorem customCode_accept_iff (s : String) :
    (isValidCustomCode s = true ↔
      ((∀ ch ∈ s.data, isCodeChar ch = true) ∧ 3 ≤ s.length ∧ s.length ≤ 50)) ∧
    isValidCustomCode s = customCodeSchemaAccepts s := by
  constructor
  · constructor
    · intro h
      simp only [isValidCustomCode, regexTestCustomCode, Bool.and_eq_true,
        decide_eq_true_eq, List.all_eq_true] at h
      exact ⟨h.1.1.2, h.1.2, h.2⟩
    · rintro ⟨hall, h3, h50⟩
      have hne : s.data.isEmpty = false := by
        cases hd : s.data with
        | nil =>
          exfalso
          have : s.length = 0 := by simp [String.length, hd]
          omega
        | cons a as => rfl
      have hall2 : s.data.all isCodeChar = true := List.all_eq_true.mpr hall
      simp [isValidCustomCode, regexTestCustomCode, hall2, h3, h50, hne]
  · cases h1 : regexTestCustomCode s <;>
      cases h2 : decide (3 ≤ s.length) <;>
      cases h3 : decide (s.length ≤ 50) <;>
      simp [isValidCustomCode, customCodeSchemaAccepts, h1, h2, h3]

/-- Witness for the amended C8, deriving a concrete acceptance through
the equivalence. -/
theorem customCode_accept_iff_witness : isValidCustomCode "my-code_1" = true :=
  (customCode_accept_iff "my-code_1").1.mpr ⟨by decide, by decide, by decide⟩

/-- Claim C9: the PUT handler merges only title, description, isActive,
password and expiresAt from the body (plus the updatedAt stamp) into
the stored Link; id, shortCode, originalUrl, createdAt, totalClicks,
uniqueClicks, lastClickAt and userId are unchanged no matter what extra
keys the body carries, and a supplied expiresAt instant that is not
strictly in the future is rejected with 400 leaving the store
untouched. -/
theorem putLink_frame_and_expiry (db : DB) (id : String) (b : PutBody) (now : Int)
    (link0 : Link) (h0 : getLinkById db id = some link0) :
    ((∃ t, b.expiresAt = some (some t) ∧ t ≤ now) →
      (handlePUT db id b now).1 = .badRequest400 "Expiration date must be in the future" ∧
      (handlePUT db id b now).2 = db) ∧
    ((∀ t, b.expiresAt = some (some t) → now < t) →
      ∃ link1, getLinkById (handlePUT db id b now).2 id = some link1 ∧
        link1.id = link0.id ∧ link1.shortCode = link0.shortCode ∧
        link1.originalUrl = link0.originalUrl ∧ link1.createdAt = link0.createdAt ∧
        link1.totalClicks = link0.totalClicks ∧ link1.uniqueClicks = link0.uniqueClicks ∧
        link1.lastClickAt = link0.lastClickAt ∧ link1.userId = link0.userId ∧
        link1.updatedAt = now ∧
        link1.title = b.title.getD link0.title ∧
        link1.description = b.description.getD link0.description ∧
        link1.isActive = b.isActive.getD link0.isActive ∧
        link1.password = b.password.getD link0.password ∧
        link1.expiresAt = b.expiresAt.getD link0.expiresAt) := by
  constructor
  · rintro ⟨t, hbt, htle⟩
    simp only [handlePUT, h0, hbt]
    rw [if_pos htle]
    exact ⟨rfl, rfl⟩
  · intro hfut
    have hred : handlePUT db id b now = handlePUTcore db id b now := by
      cases hbe : b.expiresAt with
      | none => simp only [handlePUT, h0, hbe]
      | some o =>
        cases o with
        | none => simp only [handlePUT, h0, hbe]
        | some t =>
          have hlt := hfut t hbe
          simp only [handlePUT, h0, hbe]
          rw [if_neg (by omega)]
    have hres : getLinkById (handlePUTcore db id b now).2 id =
        some (applyPatch link0 (putUpdates b) now) := by
      have hspec := updateLink_spec db id (putUpdates b) now link0 h0 rfl
      have hu1 : (updateLink db id (putUpdates b) now).1 = true := hspec.1
      rw [handlePUTcore]
      cases hu : updateLink db id (putUpdates b) now with
      | mk fst snd =>
        rw [hu] at hu1
        subst hu1
        have := hspec.2.2
        rw [hu] at this
        exact this
    refine ⟨applyPatch link0 (putUpdates b) now, ?_,
      rfl, rfl, rfl, rfl, rfl, rfl, rfl, rfl, rfl, rfl, rfl, rfl, rfl, rfl⟩
    rw [hred]
    exact hres

/-- Witness for C9: the fixture body updates the title and smuggles
extra keys for id, shortCode and totalClicks; the stored link keeps all
protected fields and takes only the allowed updates. -/
theorem putLink_frame_and_expiry_witness :
    ∃ link1, getLinkById (handlePUT wDB "L1" wPutBody 7).2 "L1" = some link1 ∧
      link1.id = wLink.id ∧ link1.shortCode = wLink.shortCode ∧
      link1.originalUrl = wLink.originalUrl ∧ link1.createdAt = wLink.createdAt ∧
      link1.totalClicks = wLink.totalClicks ∧ link1.uniqueClicks = wLink.uniqueClicks ∧
      link1.lastClickAt = wLink.lastClickAt ∧ link1.userId = wLink.userId ∧
      link1.updatedAt = 7 ∧
      link1.title = wPutBody.title.getD wLink.title ∧
      link1.description = wPutBody.description.getD wLink.description ∧
      link1.isActive = wPutBody.isActive.getD wLink.isActive ∧
      link1.password = wPutBody.password.getD wLink.password ∧
      link1.expiresAt = wPutBody.expiresAt.getD wLink.expiresAt :=
  (putLink_frame_and_expiry wDB "L1" wPutBody 7 wLink (by decide)).2
    (by intro t ht; simp [wPutBody] at ht)

/-- Claim C10 (implicit): every Store read is total and swallows file
failures; a read failure is indistinguishable from an empty store: the
collections read as empty, lookups return none, the per-link stats and
the analytics overview come back as the all-zero result, and no
StorageError surfaces. -/
theorem read_failure_empty_store (mL mC : String) (now : Int) (code id : String) :
    dbOfFiles (.failure mL) (.failure mC) = dbOfFiles (.ok []) (.ok []) ∧
    getAllLinks (dbOfFiles (.failure mL) (.failure mC)) = [] ∧
    getAllClicks (dbOfFiles (.failure mL) (.failure mC)) = [] ∧
    getLinkByShortCode (dbOfFiles (.failure mL) (.failure mC)) code = none ∧
    getLinkById (dbOfFiles (.failure mL) (.failure mC)) id = none ∧
    getClicksByLinkId (dbOfFiles (.failure mL) (.failure mC)) id = [] ∧
    getLinkStats (dbOfFiles (.failure mL) (.failure mC)) id now = none ∧
    getAnalyticsOverview (dbOfFiles (.failure mL) (.failure mC)) now =
      { totalLinks := 0, totalClicks := 0, uniqueClicks := 0, clicksToday := 0,
        clicksThisWeek := 0, clicksThisMonth := 0,
        topPerformingLinks := [], recentActivity := [] } :=
  ⟨rfl, rfl, rfl, rfl, rfl, rfl, rfl, rfl⟩

end LinkTracker
